import Mathlib

/-!
Verification development for the whale-discovery ingestion pipeline
(scripts under ethixxtradebot/scripts/python).  Python floats are modelled
as an inductive type over the rationals with explicit NaN and signed
infinities; dictionaries become structures; the in-memory discovery store
becomes an association list.  Every definition is a direct translation of
the corresponding Python function.
-/

/-- Model of a Python float: a finite rational, positive or negative
infinity, or NaN. -/
inductive PyFloat where
  | fin (q : ℚ)
  | pinf
  | ninf
  | nan
  deriving DecidableEq, Repr

/-- The check the source performs as `val != val` (true only of NaN). -/
def PyFloat.isNaN : PyFloat → Bool
  | .nan => true
  | _ => false

/-- Python comparison `f > q` against a finite rational constant. -/
def PyFloat.gtQ : PyFloat → ℚ → Bool
  | .fin x, q => decide (q < x)
  | .pinf, _ => true
  | .ninf, _ => false
  | .nan, _ => false

/-- Python comparison `f >= q` against a finite rational constant. -/
def PyFloat.geQ : PyFloat → ℚ → Bool
  | .fin x, q => decide (q ≤ x)
  | .pinf, _ => true
  | .ninf, _ => false
  | .nan, _ => false

/-- Python comparison `f <= q` against a finite rational constant. -/
def PyFloat.leQ : PyFloat → ℚ → Bool
  | .fin x, q => decide (x ≤ q)
  | .pinf, _ => false
  | .ninf, _ => true
  | .nan, _ => false

/-- Python equality test `f == 0`. -/
def PyFloat.eqZeroB : PyFloat → Bool
  | .fin x => decide (x = 0)
  | _ => false

/-- Python float addition (IEEE-style special-value propagation). -/
def PyFloat.add : PyFloat → PyFloat → PyFloat
  | .nan, _ => .nan
  | _, .nan => .nan
  | .pinf, .ninf => .nan
  | .ninf, .pinf => .nan
  | .pinf, _ => .pinf
  | _, .pinf => .pinf
  | .ninf, _ => .ninf
  | _, .ninf => .ninf
  | .fin a, .fin b => .fin (a + b)

/-- Python float division by a positive finite rational constant. -/
def PyFloat.divQ : PyFloat → ℚ → PyFloat
  | .fin a, c => .fin (a / c)
  | .pinf, _ => .pinf
  | .ninf, _ => .ninf
  | .nan, _ => .nan

/-- Python `b > a` between two floats (used by `max`). -/
def PyFloat.gtF : PyFloat → PyFloat → Bool
  | .fin a, .fin b => decide (b < a)
  | .pinf, .pinf => false
  | .pinf, _ => true
  | .ninf, _ => false
  | .nan, _ => false
  | .fin _, .pinf => false
  | .fin _, .ninf => true
  | .fin _, .nan => false

/-- Python `max(a, b)`: returns `b` when `b > a`, else `a`. -/
def pyMax (a b : PyFloat) : PyFloat := if b.gtF a then b else a

/-- Python `min(a, b)`: returns `b` when `b < a`, else `a`. -/
def pyMin (a b : PyFloat) : PyFloat := if a.gtF b then b else a

/-- Model of a Python value reachable from a decoded JSON array: `None`, a
number (carrying its float value), a string (carrying the result that
`float(s)` would produce, `none` when parsing raises), or any other object
on which `float` raises (lists, dicts). -/
inductive PyVal where
  | none
  | num (f : PyFloat)
  | str (s : String) (p : Option PyFloat)
  | obj
  deriving DecidableEq, Repr

/-- Python `float(v)` on a non-`None` value: `some` result, or `none` when
a `ValueError`/`TypeError` is raised. -/
def pyCoerceFloat : PyVal → Option PyFloat
  | PyVal.none => Option.none
  | PyVal.num f => some f
  | PyVal.str _ p => p
  | PyVal.obj => Option.none

/-- Python `str(v)` for a non-`None` value.  The exact rendering of
numerals is abstracted as the canonical rational rendering; no claim
depends on it. -/
def pyStr : PyVal → String
  | PyVal.none => "None"
  | PyVal.num (.fin q) => toString q
  | PyVal.num .pinf => "inf"
  | PyVal.num .ninf => "-inf"
  | PyVal.num .nan => "nan"
  | PyVal.str s _ => s
  | PyVal.obj => "object"

/-- Python list indexing `l[i]` with negative-index wrap-around; `none`
models the `IndexError` path. -/
def pyGetIdx (l : List PyVal) (i : ℤ) : Option PyVal :=
  if 0 ≤ i ∧ i < (l.length : ℤ) then l.get? i.toNat
  else if -(l.length : ℤ) ≤ i ∧ i < 0 then l.get? (i + l.length).toNat
  else Option.none

/-- `WorkingWhaleDiscovery.safe_float_extract`: guarded float extraction
from an array with default-on-failure and an explicit NaN check. -/
def safe_float_extract (array : List PyVal) (index : ℤ) (default : PyFloat) :
    PyFloat :=
  if index < (array.length : ℤ) then
    match pyGetIdx array index with
    | Option.none => default
    | some PyVal.none => default
    | some v =>
      match pyCoerceFloat v with
      | Option.none => default
      | some f => if f.isNaN then default else f
  else default

/-- `WorkingWhaleDiscovery.safe_extract`: guarded string extraction from an
array with default-on-failure. -/
def safe_extract (array : List PyVal) (index : ℤ) (default : String) :
    String :=
  if index < (array.length : ℤ) then
    match pyGetIdx array index with
    | Option.none => default
    | some PyVal.none => default
    | some v => pyStr v
  else default

/-- Substring test on character lists (model of the Python `in` operator
on strings). -/
def containsSub (needle : List Char) : List Char → Bool
  | [] => needle.isEmpty
  | c :: t => List.isPrefixOf needle (c :: t) || containsSub needle t

/-- Python `needle in hay` on strings. -/
def strIn (needle hay : String) : Bool := containsSub needle.toList hay.toList

/-- The canonical token dictionary built by the discovery scripts: the
union of the keys produced by the positional-array path and the
`new_pairs` path.  Keys a given path does not set carry the defaults that
`dict.get` would supply to the scorer (`0` and `False`). -/
structure TokenData where
  token_address : String
  creator_address : String
  token_name : String
  token_ticker : String
  platform : String
  website : String
  twitter : String
  telegram : String
  volume_sol : PyFloat
  market_cap_sol : PyFloat
  liquidity_sol : PyFloat
  dev_holds_percent : PyFloat
  snipers_hold_percent : PyFloat
  lp_burned : Bool
  deriving DecidableEq, Repr

/-- Liquidity block of `calculate_whale_confidence` (the amount added to
the running score by the liquidity branch chain). -/
def liquidity_contrib (liq : PyFloat) : PyFloat :=
  if liq.geQ 1000 then .fin (4/10)
  else if liq.geQ 100 then .fin (3/10)
  else if liq.geQ 10 then .fin (2/10)
  else if liq.gtQ 0 then liq.divQ 50
  else .fin 0

/-- Sniper block of `calculate_whale_confidence`. -/
def snipers_contrib (sn : PyFloat) : PyFloat :=
  if sn.geQ 50 then .fin (4/10)
  else if sn.geQ 25 then .fin (3/10)
  else if sn.geQ 10 then .fin (2/10)
  else if sn.gtQ 0 then sn.divQ 100
  else .fin 0

/-- Dev-holding block of `calculate_whale_confidence` (may be negative). -/
def dev_contrib (dev : PyFloat) : PyFloat :=
  if dev.leQ 5 then .fin (1/10)
  else if dev.geQ 50 then .fin (-(2/10))
  else .fin 0

/-- Platform-trust block of `calculate_whale_confidence`. -/
def platform_contrib (platform : String) : PyFloat :=
  if strIn "Raydium" platform || strIn "Meteora" platform then .fin (1/10)
  else if strIn "Pump AMM" platform then .fin (5/100)
  else .fin 0

/-- Social-presence block of `calculate_whale_confidence` (a string field
is truthy when nonempty). -/
def social_contrib (website twitter telegram : String) : PyFloat :=
  (((PyFloat.fin 0).add (if website = "" then .fin 0 else .fin (5/100))).add
    (if twitter = "" then .fin 0 else .fin (5/100))).add
    (if telegram = "" then .fin 0 else .fin (5/100))

/-- `WorkingWhaleDiscovery.calculate_whale_confidence`: the weighted
confidence rubric, clamped into the unit interval by
`min(1.0, max(0.0, score))`. -/
def calculate_whale_confidence (t : TokenData) : PyFloat :=
  pyMin (.fin 1) (pyMax (.fin 0)
    (PyFloat.add
      (PyFloat.add
        (PyFloat.add
          (PyFloat.add
            (PyFloat.add
              (PyFloat.add (PyFloat.fin 0)
                (liquidity_contrib t.liquidity_sol))
              (snipers_contrib t.snipers_hold_percent))
            (dev_contrib t.dev_holds_percent))
          (if t.lp_burned then .fin (1/10) else .fin 0))
        (platform_contrib t.platform))
      (social_contrib t.website t.twitter t.telegram)))

/-- `FinalProductionWhaleSystem.calculate_final_score`: the purely
volume-based piecewise score (the source reads only the `volume_sol` key
of its argument). -/
def calculate_final_score (volume_sol : ℚ) : ℚ :=
  if volume_sol ≥ 10000 then 1
  else if volume_sol ≥ 1000 then 8/10 + (volume_sol - 1000) / 45000
  else if volume_sol ≥ 100 then 5/10 + (volume_sol - 100) / 4500
  else volume_sol / 200

/-- The candidate index block `financial_candidates` of
`process_token_array`. -/
def financial_candidates : List ℤ := [13, 14, 15, 16, 17, 18, 19, 20, 21, 22, 23, 24]

/-- The positive financial values collected by `process_token_array` from
the candidate positions, in encounter order. -/
def extractCandidates (arr : List PyVal) : List PyFloat :=
  (financial_candidates.map (fun i => safe_float_extract arr i (.fin 0))).filter
    (fun v => v.gtQ 0)

/-- The three financial metrics of a token dictionary, as assigned by the
magnitude heuristic. -/
structure FinAssign where
  volume_sol : PyFloat
  market_cap_sol : PyFloat
  liquidity_sol : PyFloat
  deriving DecidableEq, Repr

/-- One iteration of the magnitude-heuristic loop in
`process_token_array`. -/
def assignStep (s : FinAssign) (val : PyFloat) : FinAssign :=
  if val.gtQ 10000 then
    if s.volume_sol.eqZeroB then { s with volume_sol := val }
    else if s.market_cap_sol.eqZeroB then { s with market_cap_sol := val }
    else s
  else if val.gtQ 100 then
    if s.liquidity_sol.eqZeroB then { s with liquidity_sol := val }
    else s
  else s

/-- The initial all-zero metrics of `process_token_array`. -/
def zeroAssign : FinAssign :=
  { volume_sol := .fin 0, market_cap_sol := .fin 0, liquidity_sol := .fin 0 }

/-- The full magnitude-heuristic assignment over a candidate list. -/
def assignFinancial (vals : List PyFloat) : FinAssign :=
  vals.foldl assignStep zeroAssign

/-- The financial metrics `process_token_array` assigns to a raw
positional array. -/
def process_token_array_metrics (arr : List PyVal) : FinAssign :=
  assignFinancial (extractCandidates arr)

/-- The token dictionary built by `process_token_array` for an array of
length at least 10 (keys this path does not set carry the defaults the
scorer would read back). -/
def tokenDataOfArray (arr : List PyVal) : TokenData :=
  { token_address := safe_extract arr 1 ""
    creator_address := safe_extract arr 2 ""
    token_name := safe_extract arr 3 "Unknown"
    token_ticker := safe_extract arr 4 "UNKNOWN"
    platform := safe_extract arr 7 "Unknown"
    website := safe_extract arr 9 ""
    twitter := safe_extract arr 10 ""
    telegram := safe_extract arr 11 ""
    volume_sol := (process_token_array_metrics arr).volume_sol
    market_cap_sol := (process_token_array_metrics arr).market_cap_sol
    liquidity_sol := (process_token_array_metrics arr).liquidity_sol
    dev_holds_percent := .fin 0
    snipers_hold_percent := .fin 0
    lp_burned := false }

/-- Token dictionaries produced by `process_token_array`: none for arrays
shorter than 10, otherwise exactly one. -/
def process_token_array_events (arr : List PyVal) : List TokenData :=
  if arr.length < 10 then [] else [tokenDataOfArray arr]

/-- An SDK `new_pairs` token object; each field is `none` when the key is
absent from the JSON object. -/
structure SDKToken where
  token_address : Option String
  deployer_address : Option String
  token_name : Option String
  token_ticker : Option String
  protocol : Option String
  website : Option String
  twitter : Option String
  telegram : Option String
  initial_liquidity_sol : Option PyVal
  supply : Option PyVal
  dev_holds_percent : Option PyVal
  snipers_hold_percent : Option PyVal
  lp_burned : Option Bool
  deriving DecidableEq, Repr

/-- The token object with every key absent. -/
def emptySDKToken : SDKToken :=
  { token_address := Option.none, deployer_address := Option.none
    token_name := Option.none, token_ticker := Option.none
    protocol := Option.none, website := Option.none, twitter := Option.none
    telegram := Option.none, initial_liquidity_sol := Option.none
    supply := Option.none, dev_holds_percent := Option.none
    snipers_hold_percent := Option.none, lp_burned := Option.none }

/-- The local helper `safe_get_float` of `process_sdk_new_pairs`:
`float(data.get(key, 0.0))` with default-on-failure (no NaN filtering). -/
def safe_get_float (v : Option PyVal) (default : PyFloat) : PyFloat :=
  match v with
  | Option.none => default
  | some PyVal.none => default
  | some w => (pyCoerceFloat w).getD default

/-- The token dictionary `process_sdk_new_pairs` builds from one SDK token
object. -/
def tokenDataOfSDK (tok : SDKToken) : TokenData :=
  { token_address := tok.token_address.getD ""
    creator_address := tok.deployer_address.getD ""
    token_name := tok.token_name.getD "Unknown"
    token_ticker := tok.token_ticker.getD "UNKNOWN"
    platform := tok.protocol.getD "Unknown"
    website := tok.website.getD ""
    twitter := tok.twitter.getD ""
    telegram := tok.telegram.getD ""
    volume_sol := .fin 0
    market_cap_sol := .fin 0
    liquidity_sol := safe_get_float tok.initial_liquidity_sol (.fin 0)
    dev_holds_percent := safe_get_float tok.dev_holds_percent (.fin 0)
    snipers_hold_percent := safe_get_float tok.snipers_hold_percent (.fin 0)
    lp_burned := tok.lp_burned.getD false }

/-- The `content` value of a room message: a single token object or an
array of them. -/
inductive SDKContent where
  | single (t : SDKToken)
  | many (l : List SDKToken)
  deriving DecidableEq, Repr

/-- `process_sdk_new_pairs`: wraps a single object into a list and builds
one token dictionary per object. -/
def process_sdk_new_pairs (c : SDKContent) : List TokenData :=
  match c with
  | .single t => [tokenDataOfSDK t]
  | .many l => l.map tokenDataOfSDK

/-- A decoded incoming frame: a JSON array, a JSON object (with the fields
the dispatcher inspects), or non-JSON data. -/
inductive RawData where
  | jlist (l : List PyVal)
  | jdict (room : Option String) (content : Option SDKContent)
      (typeField : Option String) (dataField : Option (List PyVal))
  | nonJson
  deriving Repr

/-- `handle_structured_message`: a dict with a `type` key and a list under
`data` feeds that list back through `process_token_array`. -/
def handle_structured_message (typeField : Option String)
    (dataField : Option (List PyVal)) : List TokenData :=
  match typeField with
  | Option.none => []
  | some _ =>
    match dataField with
    | some l => process_token_array_events l
    | Option.none => []

/-- `parse_real_message`: the top-level dispatch from a decoded frame to
the token dictionaries it produces.  The function is total: no input
raises. -/
def parse_real_message (m : RawData) : List TokenData :=
  match m with
  | .jdict room content typeField dataField =>
    if room = some "new_pairs" ∧ content.isSome then
      match content with
      | some c => process_sdk_new_pairs c
      | Option.none => []
    else if ((room.getD "").startsWith "v:") ∧ content.isSome then
      []
    else handle_structured_message typeField dataField
  | .jlist l =>
    if 25 < l.length then process_token_array_events l
    else []
  | .nonJson => []

/-- Association-list lookup modelling membership and access in a Python
dict keyed by wallet address. -/
def lookupW {α : Type} (k : String) : List (String × α) → Option α
  | [] => Option.none
  | (k0, v) :: t => if k0 = k then some v else lookupW k t

/-- In-place mutation of the record stored under a key (Python objects in
a dict are mutated through the stored reference). -/
def updateW {α : Type} (k : String) (f : α → α) :
    List (String × α) → List (String × α)
  | [] => []
  | (k0, v) :: t => if k0 = k then (k0, f v) :: t else (k0, v) :: updateW k f t

/-- The `WhaleDiscovery` dataclass fields the store keeps per wallet
(timestamps and raw payload omitted; they play no role in store logic). -/
structure WhaleRec where
  whale_address : String
  token_address : String
  token_name : String
  token_ticker : String
  platform : String
  volume_sol : PyFloat
  market_cap_sol : PyFloat
  liquidity_sol : PyFloat
  confidence_score : ℚ
  deriving DecidableEq, Repr

/-- The discovery state of `WorkingWhaleDiscovery`: the wallet-keyed store
plus the discovery counter. -/
structure DiscoveryState where
  discovered_whales : List (String × WhaleRec)
  whales_discovered : ℕ
  deriving DecidableEq, Repr

/-- The empty discovery state. -/
def initDiscoveryState : DiscoveryState :=
  { discovered_whales := [], whales_discovered := 0 }

/-- The record `record_whale_discovery` creates from a token dictionary. -/
def whaleRecOfToken (td : TokenData) (confidence : ℚ) : WhaleRec :=
  { whale_address := td.creator_address
    token_address := td.token_address
    token_name := td.token_name
    token_ticker := td.token_ticker
    platform := td.platform
    volume_sol := td.volume_sol
    market_cap_sol := td.market_cap_sol
    liquidity_sol := td.liquidity_sol
    confidence_score := confidence }

/-- `WorkingWhaleDiscovery.record_whale_discovery`: on a seen wallet a
strictly higher confidence overwrites only the stored confidence score; on
an unseen wallet a full record is inserted and the counter incremented. -/
def record_whale_discovery (st : DiscoveryState) (td : TokenData)
    (confidence : ℚ) : DiscoveryState :=
  match lookupW td.creator_address st.discovered_whales with
  | some existing =>
    if existing.confidence_score < confidence then
      { st with discovered_whales :=
          (updateW td.creator_address
            (fun r => { r with confidence_score := confidence })
            st.discovered_whales) }
    else st
  | Option.none =>
    { discovered_whales :=
        (td.creator_address, whaleRecOfToken td confidence) ::
          st.discovered_whales
      whales_discovered := st.whales_discovered + 1 }

/-- The whale record of `EnhancedWhaleDiscovery` (fields relevant to the
promotion contract). -/
structure EnhancedWhale where
  wallet_address : String
  token_name : String
  token_ticker : String
  confidence_score : ℚ
  auto_added : Bool
  deriving DecidableEq, Repr

/-- The discovery state of `EnhancedWhaleDiscovery`. -/
structure EnhancedState where
  discovered_whales : List (String × EnhancedWhale)
  whales_discovered : ℕ
  auto_added_count : ℕ
  deriving DecidableEq, Repr

/-- The empty enhanced discovery state. -/
def initEnhancedState : EnhancedState :=
  { discovered_whales := [], whales_discovered := 0, auto_added_count := 0 }

/-- The `auto_add_threshold` configured in `EnhancedWhaleDiscovery`. -/
def auto_add_threshold : ℚ := 45/100

/-- `EnhancedWhaleDiscovery.process_whale_discovery`: returns the updated
state together with whether this call auto-added (promoted) the wallet.
A seen wallet only ever gets its stored confidence raised; `auto_add_whale`
is reached solely on the unseen-wallet path. -/
def process_whale_discovery (st : EnhancedState) (w : EnhancedWhale) :
    EnhancedState × Bool :=
  match lookupW w.wallet_address st.discovered_whales with
  | some existing =>
    if existing.confidence_score < w.confidence_score then
      ({ st with discovered_whales :=
           (updateW w.wallet_address
             (fun r => { r with confidence_score := w.confidence_score })
             st.discovered_whales) }, false)
    else (st, false)
  | Option.none =>
    if auto_add_threshold ≤ w.confidence_score then
      ({ discovered_whales :=
           (w.wallet_address, { w with auto_added := true }) ::
             st.discovered_whales
         whales_discovered := st.whales_discovered + 1
         auto_added_count := st.auto_added_count + 1 }, true)
    else
      ({ st with
         discovered_whales := (w.wallet_address, w) :: st.discovered_whales
         whales_discovered := st.whales_discovered + 1 }, false)

/-- Python `int(q)`: truncation toward zero. -/
def pyInt (q : ℚ) : ℤ := if 0 ≤ q then ⌊q⌋ else ⌈q⌉

/-- The mutable rate-limit fields of `RateLimitSafeWhaleDiscovery` read by
the connection checks. -/
structure RateLimitState where
  connection_attempts : List ℚ
  last_connection_attempt : ℚ
  rate_limit_detected : Bool
  deriving DecidableEq, Repr

/-- The rate-limit state at construction time. -/
def initRateLimitState : RateLimitState :=
  { connection_attempts := [], last_connection_attempt := 0
    rate_limit_detected := false }

/-- The reason string returned by `can_attempt_connection`, by branch. -/
inductive AcquireReason where
  | quotaExceeded (count : ℕ)
  | tooSoon (remaining : ℤ)
  | cooldown
  | safe
  deriving DecidableEq, Repr

/-- `RateLimitSafeWhaleDiscovery.can_attempt_connection`: prunes the
sliding 60 s window, then checks the 3-per-minute quota, the 30 s minimum
interval, and the violation cooldown flag, in that order.  The pruned
window is written back, so the resulting state is returned as well. -/
def can_attempt_connection (st : RateLimitState) (now : ℚ) :
    Bool × AcquireReason × RateLimitState :=
  let attempts := st.connection_attempts.filter (fun t => now - t < 60)
  let st1 := { st with connection_attempts := attempts }
  if 3 ≤ attempts.length then (false, .quotaExceeded attempts.length, st1)
  else if now - st.last_connection_attempt < 30 then
    (false, .tooSoon (pyInt (30 - (now - st.last_connection_attempt))), st1)
  else if st.rate_limit_detected then (false, .cooldown, st1)
  else (true, .safe, st1)

/-- `RateLimitSafeWhaleDiscovery.record_connection_attempt`. -/
def record_connection_attempt (st : RateLimitState) (now : ℚ) :
    RateLimitState :=
  { st with connection_attempts := st.connection_attempts ++ [now]
            last_connection_attempt := now }

/-- One connection request as the caller performs it: check, and record
the attempt exactly when it is allowed (`connect_to_endpoint_safely` is
reached only after a positive check). -/
def requestConnection (st : RateLimitState) (now : ℚ) :
    Bool × AcquireReason × RateLimitState :=
  let c := can_attempt_connection st now
  if c.1 then (true, c.2.1, record_connection_attempt c.2.2 now)
  else (false, c.2.1, c.2.2)

/-- The violation-tracking fields of `RateLimitSafeWhaleDiscovery` touched
by `handle_rate_limit_response`. -/
structure ViolationState where
  consecutive_failures : ℕ
  rate_limit_detected : Bool
  rate_limit_events : ℕ
  deriving DecidableEq, Repr

/-- The violation state at construction time. -/
def initViolationState : ViolationState :=
  { consecutive_failures := 0, rate_limit_detected := false
    rate_limit_events := 0 }

/-- The indicator disjunction of `handle_rate_limit_response`. -/
def rate_limit_indicated (status_code : ℕ) (response_text : String) : Bool :=
  status_code = 429
    || (status_code = 401 && strIn "rate" response_text.toLower)
    || strIn "rate limit" response_text.toLower
    || strIn "too many requests" response_text.toLower
    || strIn "quota exceeded" response_text.toLower

/-- `RateLimitSafeWhaleDiscovery.handle_rate_limit_response`: when a
rate-limit signal is indicated, increments the failure and event counters,
sets the detection flag, and returns a cooldown of
`min(2 ** consecutive_failures, 300)` seconds computed after the
increment; otherwise returns a zero cooldown. -/
def handle_rate_limit_response (st : ViolationState) (status_code : ℕ)
    (response_text : String) : ViolationState × ℕ :=
  if rate_limit_indicated status_code response_text then
    let st1 : ViolationState :=
      { consecutive_failures := st.consecutive_failures + 1
        rate_limit_detected := true
        rate_limit_events := st.rate_limit_events + 1 }
    (st1, min (2 ^ st1.consecutive_failures) 300)
  else (st, 0)

/-- The state after `k` consecutive indicated violations starting from the
initial state, paired with the cooldown the last violation returned (`0`
before any violation). -/
def violationRun : ℕ → ViolationState × ℕ
  | 0 => (initViolationState, 0)
  | k + 1 => handle_rate_limit_response (violationRun k).1 429 ""

/-- Outcome of one connection attempt of
`WorkingWhaleDiscovery.websocket_connection_handler`, matching its
exception arms. -/
inductive ConnOutcome where
  | timeout
  | httpStatus (code : ℕ)
  | closed
  | otherError
  | listenReturned
  deriving DecidableEq, Repr

/-- The retry cap hard-coded in `websocket_connection_handler`. -/
def max_retries : ℕ := 10

/-- One iteration body of the handler loop: the new `retry_count` and
whether the iteration breaks out of the loop (the 403 arm). -/
def handler_step (retry_count : ℕ) (o : ConnOutcome) : ℕ × Bool :=
  match o with
  | .timeout => (retry_count + 1, false)
  | .httpStatus code =>
    if code = 401 then (retry_count + 1, false)
    else if code = 403 then (retry_count, true)
    else (retry_count + 1, false)
  | .closed => (retry_count + 1, false)
  | .otherError => (retry_count + 1, false)
  | .listenReturned => (retry_count, false)

/-- The backoff the handler sleeps between attempts. -/
def backoff_wait (retry_count : ℕ) : ℕ := min (2 ^ retry_count) 60

/-- The handler loop over a scripted sequence of attempt outcomes (with
`self.running` held true): returns the number of connection attempts
actually made, the final `retry_count`, and whether a 403 break occurred.
The loop runs only while `retry_count < max_retries`. -/
def handler_run : ℕ → List ConnOutcome → ℕ × ℕ × Bool
  | rc, [] => (0, rc, false)
  | rc, o :: rest =>
    if rc < max_retries then
      match handler_step rc o with
      | (rc1, true) => (1, rc1, true)
      | (rc1, false) =>
        match handler_run rc1 rest with
        | (n, rcf, b) => (n + 1, rcf, b)
    else (0, rc, false)

/-- A sequence of connection requests at given times: each request checks
the governor and records itself exactly when allowed; the per-request
(allowed, reason) results are returned in order. -/
def runRequests : RateLimitState → List ℚ → List (Bool × AcquireReason)
  | _, [] => []
  | st, t :: rest =>
    match requestConnection st t with
    | (ok, r, st1) => (ok, r) :: runRequests st1 rest

/-- Concrete whale fed first in the C2 counterexample run (score 0.3,
below the promotion threshold). -/
def c2WhaleLow : EnhancedWhale :=
  { wallet_address := "Wallet1", token_name := "Alpha", token_ticker := "AAA"
    confidence_score := 3/10, auto_added := false }

/-- Concrete whale fed second in the C2 counterexample run (score 0.5,
above the promotion threshold). -/
def c2WhaleHigh : EnhancedWhale :=
  { wallet_address := "Wallet1", token_name := "Beta", token_ticker := "BBB"
    confidence_score := 1/2, auto_added := false }

/-- The state after feeding the two C2 whales in order. -/
def c2Run : EnhancedState × Bool × Bool :=
  match process_whale_discovery initEnhancedState c2WhaleLow with
  | (st1, p1) =>
    match process_whale_discovery st1 c2WhaleHigh with
    | (st2, p2) => (st2, p1, p2)

/-- First token event of the C3 runs (ticker AAA). -/
def c3TokenA : TokenData :=
  { token_address := "TokA", creator_address := "Wallet1"
    token_name := "Alpha", token_ticker := "AAA", platform := "Raydium"
    website := "", twitter := "", telegram := ""
    volume_sol := .fin 500, market_cap_sol := .fin 0
    liquidity_sol := .fin 200, dev_holds_percent := .fin 0
    snipers_hold_percent := .fin 0, lp_burned := false }

/-- Second token event of the C3 runs (ticker BBB, same creator). -/
def c3TokenB : TokenData :=
  { token_address := "TokB", creator_address := "Wallet1"
    token_name := "Beta", token_ticker := "BBB", platform := "Meteora"
    website := "", twitter := "", telegram := ""
    volume_sol := .fin 900, market_cap_sol := .fin 0
    liquidity_sol := .fin 300, dev_holds_percent := .fin 0
    snipers_hold_percent := .fin 0, lp_burned := true }

/-- The discovery state after recording the C3 score sequence
[0.3, 0.5, 0.2] for one wallet. -/
def c3Run : DiscoveryState :=
  record_whale_discovery
    (record_whale_discovery
      (record_whale_discovery initDiscoveryState c3TokenA (3/10))
      c3TokenB (1/2))
    c3TokenA (2/10)

/-- The C5 room message: `room == "new_pairs"` with a `content` object
missing every recognized field. -/
def c5RoomMsg : RawData :=
  RawData.jdict (some "new_pairs") (some (SDKContent.single emptySDKToken))
    Option.none Option.none

/-! Helper lemmas shared by the theorems below. -/

lemma fin_add_fin (a b : ℚ) : (PyFloat.fin a).add (.fin b) = .fin (a + b) := rfl

lemma liquidity_contrib_isFin (l : PyFloat) :
    ∃ q : ℚ, liquidity_contrib l = .fin q := by
  unfold liquidity_contrib
  cases l with
  | fin x => split_ifs <;> exact ⟨_, rfl⟩
  | pinf => exact ⟨4/10, rfl⟩
  | ninf => exact ⟨0, rfl⟩
  | nan => exact ⟨0, rfl⟩

lemma snipers_contrib_isFin (s : PyFloat) :
    ∃ q : ℚ, snipers_contrib s = .fin q := by
  unfold snipers_contrib
  cases s with
  | fin x => split_ifs <;> exact ⟨_, rfl⟩
  | pinf => exact ⟨4/10, rfl⟩
  | ninf => exact ⟨0, rfl⟩
  | nan => exact ⟨0, rfl⟩

lemma dev_contrib_isFin (d : PyFloat) : ∃ q : ℚ, dev_contrib d = .fin q := by
  unfold dev_contrib
  cases d with
  | fin x => split_ifs <;> exact ⟨_, rfl⟩
  | pinf => exact ⟨-(2/10), rfl⟩
  | ninf => exact ⟨1/10, rfl⟩
  | nan => exact ⟨0, rfl⟩

lemma platform_contrib_isFin (p : String) :
    ∃ q : ℚ, platform_contrib p = .fin q := by
  unfold platform_contrib
  split_ifs <;> exact ⟨_, rfl⟩

lemma social_contrib_isFin (w t g : String) :
    ∃ q : ℚ, social_contrib w t g = .fin q := by
  unfold social_contrib
  split_ifs <;> exact ⟨_, rfl⟩

lemma pyClamp_fin (q : ℚ) :
    pyMin (.fin 1) (pyMax (.fin 0) (.fin q)) = .fin (min 1 (max 0 q)) := by
  by_cases h0 : 0 < q
  · have hmax : pyMax (.fin 0) (.fin q) = .fin q := by
      simp [pyMax, PyFloat.gtF, h0]
    rw [hmax]
    by_cases h1 : q < 1
    · have hm : pyMin (.fin 1) (.fin q) = .fin q := by
        simp [pyMin, PyFloat.gtF, h1]
      rw [hm, max_eq_right h0.le, min_eq_right h1.le]
    · have hm : pyMin (.fin 1) (.fin q) = .fin 1 := by
        simp [pyMin, PyFloat.gtF, h1]
      rw [hm, max_eq_right h0.le, min_eq_left (le_of_not_lt h1)]
  · have hmax : pyMax (.fin 0) (.fin q) = .fin 0 := by
      simp [pyMax, PyFloat.gtF, h0]
    rw [hmax]
    have hm : pyMin (.fin 1) (.fin 0) = .fin 0 := by
      simp [pyMin, PyFloat.gtF]
    rw [hm, max_eq_left (le_of_not_lt h0), min_eq_right zero_le_one]

/-- C1: for every token-event input, including adversarial combinations
whose pre-clamp sum is negative or above 1, `calculate_whale_confidence`
returns a finite score inside the closed unit interval. -/
theorem confidence_score_in_unit_interval (t : TokenData) :
    ∃ q : ℚ, calculate_whale_confidence t = .fin q ∧ 0 ≤ q ∧ q ≤ 1 := by
  obtain ⟨a, ha⟩ := liquidity_contrib_isFin t.liquidity_sol
  obtain ⟨b, hb⟩ := snipers_contrib_isFin t.snipers_hold_percent
  obtain ⟨c, hc⟩ := dev_contrib_isFin t.dev_holds_percent
  obtain ⟨d, hd⟩ :
      ∃ q : ℚ, (if t.lp_burned then PyFloat.fin (1/10) else .fin 0) = .fin q := by
    cases t.lp_burned <;> exact ⟨_, rfl⟩
  obtain ⟨e, he⟩ := platform_contrib_isFin t.platform
  obtain ⟨f, hf⟩ := social_contrib_isFin t.website t.twitter t.telegram
  unfold calculate_whale_confidence
  rw [ha, hb, hc, hd, he, hf]
  simp only [fin_add_fin]
  rw [pyClamp_fin]
  refine ⟨_, rfl, ?_, ?_⟩
  · exact le_min (by norm_num) (le_max_left 0 _)
  · exact min_le_left 1 _

/-- C9: on non-negative volumes, `calculate_final_score` is monotonically
non-decreasing and bounded above by 1; the piecewise branches join with no
downward jump at the cut-points 100, 1000 and 10000. -/
theorem final_score_monotone_le_one (v1 v2 : ℚ) (h0 : 0 ≤ v1)
    (h12 : v1 ≤ v2) :
    calculate_final_score v1 ≤ calculate_final_score v2 ∧
      calculate_final_score v2 ≤ 1 := by
  unfold calculate_final_score
  constructor <;> split_ifs <;> linarith

/-- Witness for C9 at the concrete pair (50, 20000). -/
theorem final_score_monotone_le_one_witness :
    (0 : ℚ) ≤ 50 ∧ (50 : ℚ) ≤ 20000 ∧
      (calculate_final_score 50 ≤ calculate_final_score 20000 ∧
        calculate_final_score 20000 ≤ 1) :=
  ⟨by norm_num, by norm_num,
    final_score_monotone_le_one 50 20000 (by norm_num) (by norm_num)⟩

/-- C10: `safe_float_extract` is total (no exception escapes) and never
returns NaN when called with the default `0.0` the call sites use:
out-of-range indices, `None` entries, unparseable values and NaN floats
all map to the default `0.0`, so every extracted numeric field is a
well-defined non-NaN float. -/
theorem safe_float_extract_no_nan_defaults (array : List PyVal) (index : ℤ) :
    (safe_float_extract array index (.fin 0)).isNaN = false
    ∧ ((array.length : ℤ) ≤ index →
        safe_float_extract array index (.fin 0) = .fin 0)
    ∧ (index < -(array.length : ℤ) →
        safe_float_extract array index (.fin 0) = .fin 0)
    ∧ (pyGetIdx array index = some PyVal.none →
        safe_float_extract array index (.fin 0) = .fin 0)
    ∧ (∀ v, pyGetIdx array index = some v → pyCoerceFloat v = Option.none →
        safe_float_extract array index (.fin 0) = .fin 0)
    ∧ (∀ v f, pyGetIdx array index = some v → pyCoerceFloat v = some f →
        f.isNaN = true → safe_float_extract array index (.fin 0) = .fin 0) := by
  refine ⟨?_, ?_, ?_, ?_, ?_, ?_⟩
  · unfold safe_float_extract
    split
    · split
      · rfl
      · rfl
      · split
        · rfl
        · split
          · rfl
          · rename_i hnan
            simp only [Bool.not_eq_true] at hnan
            exact hnan
    · rfl
  · intro h
    unfold safe_float_extract
    rw [if_neg (by omega)]
  · intro h
    have hg : pyGetIdx array index = Option.none := by
      unfold pyGetIdx
      rw [if_neg (by omega), if_neg (by omega)]
    unfold safe_float_extract
    split
    · rw [hg]
    · rfl
  · intro h
    unfold safe_float_extract
    split
    · rw [h]
    · rfl
  · intro v hv hc
    unfold safe_float_extract
    split
    · rw [hv]
      cases v with
      | none => rfl
      | num f => simp [pyCoerceFloat] at hc
      | str s p =>
        have : pyCoerceFloat (PyVal.str s p) = p := rfl
        rw [this] at hc
        subst hc
        rfl
      | obj => rfl
    · rfl
  · intro v f hv hc hnan
    unfold safe_float_extract
    split
    · rw [hv]
      cases v with
      | none => rfl
      | num g =>
        have hg : g = f := by simpa [pyCoerceFloat] using hc
        subst hg
        simp [pyCoerceFloat, hnan]
      | str s p =>
        have : pyCoerceFloat (PyVal.str s p) = p := rfl
        rw [this] at hc
        subst hc
        simp [pyCoerceFloat, hnan]
      | obj => simp [pyCoerceFloat] at hc
    · rfl

/-- Witness for C10 at a one-element array holding a NaN float. -/
theorem safe_float_extract_no_nan_defaults_witness :
    safe_float_extract [PyVal.num .nan] 0 (.fin 0) = .fin 0 :=
  (safe_float_extract_no_nan_defaults [PyVal.num .nan] 0).2.2.2.2.2
    (PyVal.num .nan) PyFloat.nan (by decide) (by decide) (by decide)

lemma indicated_429 : rate_limit_indicated 429 "" = true := by decide

lemma violationRun_failures (k : ℕ) :
    (violationRun k).1.consecutive_failures = k := by
  induction k with
  | zero => rfl
  | succ n ih =>
    unfold violationRun handle_rate_limit_response
    rw [indicated_429]
    simp only [if_true]
    exact congrArg Nat.succ ih

/-- C8 counterexample: the very first reported violation from a fresh
state yields a cooldown of `min(2 ** 1, 300) = 2` seconds, not the 30
seconds the claim states. -/
theorem first_violation_cooldown_is_two :
    (handle_rate_limit_response initViolationState 429 "").2 = 2 ∧
      (handle_rate_limit_response initViolationState 429 "").2 ≠ 30 := by
  decide

/-- C8 amended: after `k` consecutive reported violations the cooldown is
`min(2 ** k, 300)` seconds — 2 seconds on the first violation, doubling on
each repetition up to the 300-second cap, which is reached from the ninth
consecutive violation on. -/
theorem violation_cooldown_formula (k : ℕ) (hk : 1 ≤ k) :
    (violationRun k).1.consecutive_failures = k ∧
    (violationRun k).2 = min (2 ^ k) 300 ∧
    (violationRun 1).2 = 2 ∧
    (k ≤ 8 → (violationRun k).2 = 2 ^ k) ∧
    (9 ≤ k → (violationRun k).2 = 300) := by
  obtain ⟨n, rfl⟩ : ∃ n, k = n + 1 := ⟨k - 1, by omega⟩
  have hb : (violationRun (n + 1)).2 = min (2 ^ (n + 1)) 300 := by
    unfold violationRun handle_rate_limit_response
    rw [indicated_429]
    simp only [if_true]
    rw [violationRun_failures n]
  refine ⟨violationRun_failures (n + 1), hb, rfl, ?_, ?_⟩
  · intro h8
    rw [hb]
    have : 2 ^ (n + 1) ≤ 300 := by
      calc (2:ℕ) ^ (n + 1) ≤ 2 ^ 8 := Nat.pow_le_pow_right (by norm_num) h8
        _ ≤ 300 := by norm_num
    exact min_eq_left this
  · intro h9
    rw [hb]
    have : 300 ≤ 2 ^ (n + 1) := by
      calc (300:ℕ) ≤ 2 ^ 9 := by norm_num
        _ ≤ 2 ^ (n + 1) := Nat.pow_le_pow_right (by norm_num) h9
    exact min_eq_right this

/-- Witness for C8 at the first violation. -/
theorem violation_cooldown_formula_witness :
    1 ≤ 1 ∧ ((violationRun 1).1.consecutive_failures = 1 ∧
      (violationRun 1).2 = min (2 ^ 1) 300 ∧
      (violationRun 1).2 = 2 ∧
      (1 ≤ 8 → (violationRun 1).2 = 2 ^ 1) ∧
      (9 ≤ 1 → (violationRun 1).2 = 300)) :=
  ⟨le_refl 1, (violation_cooldown_formula 1 (le_refl 1)).1,
    (violation_cooldown_formula 1 (le_refl 1)).2.1,
    (violation_cooldown_formula 1 (le_refl 1)).2.2.1,
    (violation_cooldown_formula 1 (le_refl 1)).2.2.2.1,
    (violation_cooldown_formula 1 (le_refl 1)).2.2.2.2⟩

/-- C7 counterexample: eleven consecutive connection timeouts — with no
403/FATAL outcome anywhere — produce exactly ten connection attempts: the
handler stops at `max_retries = 10`, so retries for non-fatal failures are
finitely capped. -/
theorem handler_stops_after_ten_failures :
    (handler_run 0 (List.replicate 11 ConnOutcome.timeout)).1 = 10 ∧
      (handler_run 0 (List.replicate 11 ConnOutcome.timeout)).1 ≠ 11 ∧
      (handler_run 0 (List.replicate 11 ConnOutcome.timeout)).2.2 = false := by
  decide

lemma handler_run_nonfatal (l : List ConnOutcome) : ∀ rc : ℕ,
    (∀ o ∈ l, o = ConnOutcome.timeout ∨ o = ConnOutcome.closed) →
    (handler_run rc l).1 = min l.length (max_retries - rc) ∧
      (handler_run rc l).2.2 = false := by
  induction l with
  | nil =>
    intro rc _
    simp [handler_run]
  | cons o rest ih =>
    intro rc h
    have ho := h o (List.mem_cons_self o rest)
    have hrest : ∀ x ∈ rest, x = ConnOutcome.timeout ∨ x = ConnOutcome.closed :=
      fun x hx => h x (List.mem_cons_of_mem o hx)
    have hstep : handler_step rc o = (rc + 1, false) := by
      rcases ho with h1 | h1 <;> subst h1 <;> rfl
    unfold handler_run
    by_cases hrc : rc < max_retries
    · rw [if_pos hrc, hstep]
      obtain ⟨ih1, ih2⟩ := ih (rc + 1) hrest
      rcases hr : handler_run (rc + 1) rest with ⟨n, rcf, b⟩
      rw [hr] at ih1 ih2
      dsimp only
      rw [hr]
      dsimp only
      dsimp only at ih1 ih2
      simp only [List.length_cons]
      unfold max_retries at hrc ih1 ⊢
      refine ⟨?_, ih2⟩
      rw [ih1]
      omega
    · rw [if_neg hrc]
      dsimp only
      simp only [List.length_cons]
      unfold max_retries at hrc ⊢
      refine ⟨?_, trivial⟩
      omega

/-- C7 amended: for any run of consecutive non-fatal failures (timeouts or
connection resets) the handler retries — with backoff
`min(2 ** retry_count, 60)` between attempts — only while fewer than
`max_retries = 10` consecutive failures have occurred; the number of
attempts made against a script of `n` such failures is `min n 10`, and no
FATAL (403) break is involved in stopping. -/
theorem handler_retry_cap (l : List ConnOutcome)
    (h : ∀ o ∈ l, o = ConnOutcome.timeout ∨ o = ConnOutcome.closed) :
    (handler_run 0 l).1 = min l.length max_retries ∧
      (handler_run 0 l).2.2 = false :=
  handler_run_nonfatal l 0 h

/-- Witness for C7 amended at three consecutive timeouts. -/
theorem handler_retry_cap_witness :
    (handler_run 0 (List.replicate 3 ConnOutcome.timeout)).1 =
      min (List.replicate 3 ConnOutcome.timeout).length max_retries ∧
      (handler_run 0 (List.replicate 3 ConnOutcome.timeout)).2.2 = false :=
  handler_retry_cap (List.replicate 3 ConnOutcome.timeout) (by decide)

lemma pyInt_pos (q : ℚ) (h : 1 ≤ q) : 0 < pyInt q := by
  unfold pyInt
  rw [if_pos (by linarith : (0:ℚ) ≤ q)]
  have h1 : (1:ℤ) ≤ ⌊q⌋ := by
    rw [Int.le_floor]
    exact_mod_cast h
  omega

/-- C6: four connection requests within a 10-second span (the first one
made at least 30 s after start-up, so it is allowed) — the second, third
and fourth are denied, each with a positive remaining-wait value; in
particular the fourth `tryAcquire` returns allowed = false with a positive
wait time. -/
theorem fourth_connection_denied (t0 t1 t2 t3 : ℚ)
    (h0 : 30 ≤ t0) (h01 : t0 ≤ t1) (h12 : t1 ≤ t2) (h23 : t2 ≤ t3)
    (hspan : t3 ≤ t0 + 10) :
    runRequests initRateLimitState [t0, t1, t2, t3] =
      [(true, .safe),
       (false, .tooSoon (pyInt (30 - (t1 - t0)))),
       (false, .tooSoon (pyInt (30 - (t2 - t0)))),
       (false, .tooSoon (pyInt (30 - (t3 - t0))))] ∧
      0 < pyInt (30 - (t3 - t0)) := by
  have h30 : ¬ (t0 < 30) := not_lt.mpr h0
  have hc0 : can_attempt_connection (RateLimitState.mk [] 0 false) t0 =
      (true, AcquireReason.safe, RateLimitState.mk [] 0 false) := by
    simp [can_attempt_connection, h30]
  have hr0 : requestConnection (RateLimitState.mk [] 0 false) t0 =
      (true, AcquireReason.safe, RateLimitState.mk [t0] t0 false) := by
    simp [requestConnection, hc0, record_connection_attempt]
  have step : ∀ t : ℚ, t0 ≤ t → t ≤ t0 + 10 →
      requestConnection (RateLimitState.mk [t0] t0 false) t =
        (false, AcquireReason.tooSoon (pyInt (30 - (t - t0))),
          RateLimitState.mk [t0] t0 false) := by
    intro t hle hub
    have h60 : t - t0 < 60 := by linarith
    have h30b : t - t0 < 30 := by linarith
    have hc : can_attempt_connection (RateLimitState.mk [t0] t0 false) t =
        (false, AcquireReason.tooSoon (pyInt (30 - (t - t0))),
          RateLimitState.mk [t0] t0 false) := by
      simp [can_attempt_connection, h60, h30b]
    simp [requestConnection, hc]
  constructor
  · simp only [initRateLimitState]
    simp only [runRequests, hr0, step t1 h01 (by linarith),
      step t2 (by linarith) (by linarith), step t3 (by linarith) hspan]
  · exact pyInt_pos _ (by linarith)

/-- Witness for C6 at the concrete request times 30, 33, 36, 40. -/
theorem fourth_connection_denied_witness :
    runRequests initRateLimitState [30, 33, 36, 40] =
      [(true, .safe),
       (false, .tooSoon (pyInt (30 - (33 - 30)))),
       (false, .tooSoon (pyInt (30 - (36 - 30)))),
       (false, .tooSoon (pyInt (30 - (40 - 30))))] ∧
      0 < pyInt (30 - (40 - 30)) :=
  fourth_connection_denied 30 33 36 40 (by norm_num) (by norm_num)
    (by norm_num) (by norm_num) (by norm_num)

lemma lookupW_cons_self {α : Type} (k : String) (v : α)
    (t : List (String × α)) : lookupW k ((k, v) :: t) = some v := by
  simp [lookupW]

/-- C2 counterexample: feeding one wallet the scores 0.3 then 0.5 leaves
the stored best score at 0.5 — at or above the 0.45 auto-promote
threshold — with `auto_added` still false, and neither call returned a
promoted result: a wallet whose best score crosses the threshold by
improvement is never promoted. -/
theorem promotion_missed_after_improvement :
    c2Run.2.1 = false ∧ c2Run.2.2 = false ∧
      lookupW "Wallet1" c2Run.1.discovered_whales =
        some { wallet_address := "Wallet1", token_name := "Alpha"
               token_ticker := "AAA", confidence_score := 1/2
               auto_added := false } ∧
      auto_add_threshold ≤ 1/2 := by
  norm_num [c2Run, process_whale_discovery, initEnhancedState, c2WhaleLow,
    c2WhaleHigh, lookupW, updateW, auto_add_threshold]

/-- C2 amended: promotion happens exactly at record creation — an unseen
wallet arriving with score at or above the 0.45 threshold is promoted on
that call, and every later call for the same wallet (any score) returns
promoted = false. -/
theorem promotion_only_at_creation (st : EnhancedState)
    (w w2 : EnhancedWhale)
    (hnew : lookupW w.wallet_address st.discovered_whales = Option.none)
    (hscore : auto_add_threshold ≤ w.confidence_score)
    (hsame : w2.wallet_address = w.wallet_address) :
    (process_whale_discovery st w).2 = true ∧
      (process_whale_discovery (process_whale_discovery st w).1 w2).2 =
        false := by
  have h1 : process_whale_discovery st w =
      ({ discovered_whales :=
           (w.wallet_address, { w with auto_added := true }) ::
             st.discovered_whales
         whales_discovered := st.whales_discovered + 1
         auto_added_count := st.auto_added_count + 1 }, true) := by
    unfold process_whale_discovery
    rw [hnew]
    dsimp only
    rw [if_pos hscore]
  rw [h1]
  refine ⟨rfl, ?_⟩
  unfold process_whale_discovery
  dsimp only
  rw [hsame, lookupW_cons_self]
  dsimp only
  split
  · rfl
  · rfl

/-- Witness for C2 amended: a fresh wallet with score 0.5 promoted once,
then denied on the repeat call. -/
theorem promotion_only_at_creation_witness :
    (process_whale_discovery initEnhancedState c2WhaleHigh).2 = true ∧
      (process_whale_discovery
        (process_whale_discovery initEnhancedState c2WhaleHigh).1
        c2WhaleHigh).2 = false :=
  promotion_only_at_creation initEnhancedState c2WhaleHigh c2WhaleHigh
    rfl (by norm_num [auto_add_threshold, c2WhaleHigh]) rfl

lemma lookupW_updateW_self {α : Type} (k : String) (f : α → α) :
    ∀ l : List (String × α),
      lookupW k (updateW k f l) = (lookupW k l).map f := by
  intro l
  induction l with
  | nil => rfl
  | cons p t ih =>
    rcases p with ⟨k0, v⟩
    by_cases h : k0 = k
    · simp [updateW, lookupW, h]
    · simp [updateW, lookupW, h, ih]

lemma lookupW_updateW_ne {α : Type} (k k' : String) (f : α → α)
    (h : k' ≠ k) :
    ∀ l : List (String × α), lookupW k' (updateW k f l) = lookupW k' l := by
  intro l
  induction l with
  | nil => rfl
  | cons p t ih =>
    rcases p with ⟨k0, v⟩
    by_cases hk : k0 = k
    · subst hk
      have : ¬ (k0 = k') := fun e => h (e.symm)
      simp [updateW, lookupW, this]
    · by_cases hk' : k0 = k'
      · simp [updateW, lookupW, hk, hk', h]
      · simp [updateW, lookupW, hk, hk', ih]

lemma updateW_keys {α : Type} (k : String) (f : α → α) :
    ∀ l : List (String × α),
      (updateW k f l).map Prod.fst = l.map Prod.fst := by
  intro l
  induction l with
  | nil => rfl
  | cons p t ih =>
    rcases p with ⟨k0, v⟩
    by_cases h : k0 = k
    · simp [updateW, h]
    · simp [updateW, h, ih]

lemma lookupW_none_not_mem {α : Type} (k : String) :
    ∀ l : List (String × α),
      lookupW k l = Option.none → k ∉ l.map Prod.fst := by
  intro l
  induction l with
  | nil => simp
  | cons p t ih =>
    rcases p with ⟨k0, v⟩
    by_cases h : k0 = k
    · simp [lookupW, h]
    · intro hn
      simp only [lookupW, h, if_false] at hn
      simp only [List.map_cons, List.mem_cons]
      rintro (he | hm)
      · exact h he.symm
      · exact ih hn hm

/-- C3 counterexample: for the score sequence [0.3, 0.5, 0.2] on one
wallet, the store ends with exactly one record whose best score is 0.5,
but the stored event still carries the first event's fields (ticker AAA,
token TokA) — the higher-scoring second event (ticker BBB) updated only
the score, not the stored best event. -/
theorem best_event_not_updated_on_higher_score :
    c3Run.discovered_whales.length = 1 ∧
      lookupW "Wallet1" c3Run.discovered_whales =
        some { whale_address := "Wallet1", token_address := "TokA"
               token_name := "Alpha", token_ticker := "AAA"
               platform := "Raydium", volume_sol := .fin 500
               market_cap_sol := .fin 0, liquidity_sol := .fin 200
               confidence_score := 1/2 } ∧
      (lookupW "Wallet1" c3Run.discovered_whales).map WhaleRec.token_ticker ≠
        some "BBB" := by
  norm_num [c3Run, record_whale_discovery, initDiscoveryState, c3TokenA,
    c3TokenB, whaleRecOfToken, lookupW, updateW]
  decide

/-- C3 amended: the store keeps at most one record per wallet and its best
score is monotonically non-decreasing; a strictly higher confidence
updates only the stored confidence score (the stored event fields are
unchanged), a lower or equal confidence leaves the state unchanged, and
the [0.3, 0.5, 0.2] sequence ends with one record at best score 0.5. -/
theorem discovery_store_dedup_monotone :
    (∀ (st : DiscoveryState) (td : TokenData) (conf : ℚ) (ex : WhaleRec),
      lookupW td.creator_address st.discovered_whales = some ex →
        (ex.confidence_score < conf →
          lookupW td.creator_address
              (record_whale_discovery st td conf).discovered_whales =
            some { ex with confidence_score := conf }) ∧
        (conf ≤ ex.confidence_score →
          record_whale_discovery st td conf = st)) ∧
    (∀ (st : DiscoveryState) (td : TokenData) (conf : ℚ),
      (st.discovered_whales.map Prod.fst).Nodup →
        ((record_whale_discovery st td conf).discovered_whales.map
          Prod.fst).Nodup) ∧
    (∀ (st : DiscoveryState) (td : TokenData) (conf : ℚ) (w : String)
        (r : WhaleRec),
      lookupW w st.discovered_whales = some r →
        ∃ r', lookupW w
            (record_whale_discovery st td conf).discovered_whales =
              some r' ∧
          r.confidence_score ≤ r'.confidence_score) ∧
    (c3Run.discovered_whales.length = 1 ∧
      (lookupW "Wallet1" c3Run.discovered_whales).map
        WhaleRec.confidence_score = some (1/2)) := by
  refine ⟨?_, ?_, ?_, ?_⟩
  · intro st td conf ex hex
    constructor
    · intro hlt
      unfold record_whale_discovery
      rw [hex]
      dsimp only
      rw [if_pos hlt]
      dsimp only
      rw [lookupW_updateW_self, hex]
      rfl
    · intro hle
      unfold record_whale_discovery
      rw [hex]
      dsimp only
      rw [if_neg (not_lt.mpr hle)]
  · intro st td conf hnd
    unfold record_whale_discovery
    cases hex : lookupW td.creator_address st.discovered_whales with
    | some ex =>
      dsimp only
      split
      · dsimp only
        rw [updateW_keys]
        exact hnd
      · exact hnd
    | none =>
      dsimp only
      simp only [List.map_cons, List.nodup_cons]
      exact ⟨lookupW_none_not_mem _ _ hex, hnd⟩
  · intro st td conf w r hr
    unfold record_whale_discovery
    cases hex : lookupW td.creator_address st.discovered_whales with
    | some ex =>
      dsimp only
      split
      · rename_i hlt
        by_cases hw : w = td.creator_address
        · subst hw
          have hre : r = ex := by
            rw [hr] at hex
            exact Option.some.inj hex
          refine ⟨{ ex with confidence_score := conf }, ?_, ?_⟩
          · dsimp only
            rw [lookupW_updateW_self, hex]
            rfl
          · rw [hre]
            exact le_of_lt hlt
        · refine ⟨r, ?_, le_refl _⟩
          dsimp only
          rw [lookupW_updateW_ne _ _ _ hw]
          exact hr
      · exact ⟨r, hr, le_refl _⟩
    | none =>
      dsimp only
      by_cases hw : w = td.creator_address
      · rw [hw] at hr
        rw [hr] at hex
        exact (Option.some_ne_none r hex).elim
      · refine ⟨r, ?_, le_refl _⟩
        have hcw : ¬ (td.creator_address = w) := fun e => hw e.symm
        simp only [lookupW, hcw, if_false]
        exact hr
  · constructor
    · norm_num [c3Run, record_whale_discovery, initDiscoveryState, c3TokenA,
        c3TokenB, whaleRecOfToken, lookupW, updateW]
    · norm_num [c3Run, record_whale_discovery, initDiscoveryState, c3TokenA,
        c3TokenB, whaleRecOfToken, lookupW, updateW]

/-- Witness for C3 amended: the update-score-only clause applied to the
recorded first event and the higher-scoring second event. -/
theorem discovery_store_dedup_monotone_witness :
    lookupW "Wallet1"
        (record_whale_discovery
          (record_whale_discovery initDiscoveryState c3TokenA (3/10))
          c3TokenB (1/2)).discovered_whales =
      some { whaleRecOfToken c3TokenA (3/10) with confidence_score := 1/2 } :=
  ((discovery_store_dedup_monotone.1
      (record_whale_discovery initDiscoveryState c3TokenA (3/10))
      c3TokenB (1/2) (whaleRecOfToken c3TokenA (3/10))
      (by simp [record_whale_discovery, initDiscoveryState, lookupW,
        c3TokenA, c3TokenB])).1
    (by norm_num [whaleRecOfToken]))

lemma eqZeroB_false_of_gtQ (v : PyFloat) (c : ℚ) (hc : 0 ≤ c)
    (h : v.gtQ c = true) : v.eqZeroB = false := by
  cases v with
  | fin x =>
    simp only [PyFloat.gtQ, decide_eq_true_eq] at h
    simp only [PyFloat.eqZeroB, decide_eq_false_iff_not]
    intro he
    rw [he] at h
    linarith
  | pinf => rfl
  | ninf => simp [PyFloat.gtQ] at h
  | nan => simp [PyFloat.gtQ] at h

lemma assignStep_volume (s : FinAssign) (v : PyFloat) :
    (assignStep s v).volume_sol =
      if v.gtQ 10000 && s.volume_sol.eqZeroB then v else s.volume_sol := by
  unfold assignStep
  by_cases h1 : v.gtQ 10000 = true
  · by_cases h2 : s.volume_sol.eqZeroB = true
    · simp [h1, h2]
    · simp only [h1, h2, Bool.and_false, if_true, if_false,
        Bool.false_eq_true]
      split <;> rfl
  · simp only [h1, Bool.false_and, Bool.false_eq_true, if_false]
    split
    · split <;> rfl
    · rfl

lemma assignStep_mcap (s : FinAssign) (v : PyFloat) :
    (assignStep s v).market_cap_sol =
      if v.gtQ 10000 && !s.volume_sol.eqZeroB && s.market_cap_sol.eqZeroB
      then v else s.market_cap_sol := by
  unfold assignStep
  by_cases h1 : v.gtQ 10000 = true
  · by_cases h2 : s.volume_sol.eqZeroB = true
    · simp [h1, h2]
    · by_cases h3 : s.market_cap_sol.eqZeroB = true
      · simp [h1, h2, h3]
      · simp [h1, h2, h3]
  · simp only [h1, Bool.false_and, Bool.false_eq_true, if_false]
    split
    · split <;> rfl
    · rfl

lemma assignStep_liq (s : FinAssign) (v : PyFloat) :
    (assignStep s v).liquidity_sol =
      if !(v.gtQ 10000) && v.gtQ 100 && s.liquidity_sol.eqZeroB
      then v else s.liquidity_sol := by
  unfold assignStep
  by_cases h1 : v.gtQ 10000 = true
  · simp only [h1, Bool.not_true, Bool.false_and, Bool.false_eq_true,
      if_true, if_false]
    split
    · rfl
    · split <;> rfl
  · by_cases h2 : v.gtQ 100 = true
    · by_cases h3 : s.liquidity_sol.eqZeroB = true
      · simp [h1, h2, h3]
      · simp [h1, h2, h3]
    · simp [h1, h2]

lemma foldl_assign_volume : ∀ (vals : List PyFloat) (s : FinAssign),
    (List.foldl assignStep s vals).volume_sol =
      if s.volume_sol.eqZeroB then
        (vals.filter (fun v => v.gtQ 10000)).headD s.volume_sol
      else s.volume_sol := by
  intro vals
  induction vals with
  | nil =>
    intro s
    simp [List.foldl_nil]
  | cons v rest ih =>
    intro s
    rw [List.foldl_cons, ih (assignStep s v)]
    by_cases h1 : v.gtQ 10000 = true
    · have hvnz : v.eqZeroB = false :=
        eqZeroB_false_of_gtQ v 10000 (by norm_num) h1
      by_cases h2 : s.volume_sol.eqZeroB = true
      · rw [assignStep_volume]
        simp [h1, h2, hvnz, List.filter_cons]
      · simp only [Bool.not_eq_true] at h2
        rw [assignStep_volume]
        simp [h1, h2]
    · simp only [Bool.not_eq_true] at h1
      rw [assignStep_volume]
      simp [h1, List.filter_cons]

lemma foldl_assign_mcap : ∀ (vals : List PyFloat) (s : FinAssign),
    (List.foldl assignStep s vals).market_cap_sol =
      if s.volume_sol.eqZeroB then
        (if s.market_cap_sol.eqZeroB then
          ((vals.filter (fun v => v.gtQ 10000)).drop 1).headD
            s.market_cap_sol
        else s.market_cap_sol)
      else
        (if s.market_cap_sol.eqZeroB then
          (vals.filter (fun v => v.gtQ 10000)).headD s.market_cap_sol
        else s.market_cap_sol) := by
  intro vals
  induction vals with
  | nil =>
    intro s
    simp [List.foldl_nil]
  | cons v rest ih =>
    intro s
    rw [List.foldl_cons, ih (assignStep s v)]
    by_cases h1 : v.gtQ 10000 = true
    · have hvnz : v.eqZeroB = false :=
        eqZeroB_false_of_gtQ v 10000 (by norm_num) h1
      by_cases h2 : s.volume_sol.eqZeroB = true
      · rw [assignStep_volume, assignStep_mcap]
        simp [h1, h2, hvnz, List.filter_cons]
      · simp only [Bool.not_eq_true] at h2
        by_cases h3 : s.market_cap_sol.eqZeroB = true
        · rw [assignStep_volume, assignStep_mcap]
          simp [h1, h2, h3, hvnz, List.filter_cons]
        · simp only [Bool.not_eq_true] at h3
          rw [assignStep_volume, assignStep_mcap]
          simp [h1, h2, h3]
    · simp only [Bool.not_eq_true] at h1
      rw [assignStep_volume, assignStep_mcap]
      simp [h1, List.filter_cons]

lemma foldl_assign_liq : ∀ (vals : List PyFloat) (s : FinAssign),
    (List.foldl assignStep s vals).liquidity_sol =
      if s.liquidity_sol.eqZeroB then
        (vals.filter (fun v => !(v.gtQ 10000) && v.gtQ 100)).headD
          s.liquidity_sol
      else s.liquidity_sol := by
  intro vals
  induction vals with
  | nil =>
    intro s
    simp [List.foldl_nil]
  | cons v rest ih =>
    intro s
    rw [List.foldl_cons, ih (assignStep s v)]
    by_cases h1 : v.gtQ 10000 = true
    · rw [assignStep_liq]
      simp [h1, List.filter_cons]
    · simp only [Bool.not_eq_true] at h1
      by_cases h2 : v.gtQ 100 = true
      · have hvnz : v.eqZeroB = false :=
          eqZeroB_false_of_gtQ v 100 (by norm_num) h2
        by_cases h3 : s.liquidity_sol.eqZeroB = true
        · rw [assignStep_liq]
          simp [h1, h2, h3, hvnz, List.filter_cons]
        · simp only [Bool.not_eq_true] at h3
          rw [assignStep_liq]
          simp [h1, h2, h3]
      · simp only [Bool.not_eq_true] at h2
        rw [assignStep_liq]
        simp [h1, h2, List.filter_cons]

/-- C4: on every positional array, the magnitude heuristic assigns the
first positive candidate above 10000 to volume, the second such candidate
to market cap, and the first candidate in the range above 100 but not
above 10000 to liquidity; metrics with no matching candidate stay 0, and
an assigned metric is never overwritten by a later candidate. -/
theorem magnitude_heuristic_assignment (arr : List PyVal) :
    (process_token_array_metrics arr).volume_sol =
      ((extractCandidates arr).filter (fun v => v.gtQ 10000)).headD
        (.fin 0) ∧
    (process_token_array_metrics arr).market_cap_sol =
      (((extractCandidates arr).filter (fun v => v.gtQ 10000)).drop
        1).headD (.fin 0) ∧
    (process_token_array_metrics arr).liquidity_sol =
      ((extractCandidates arr).filter
        (fun v => !(v.gtQ 10000) && v.gtQ 100)).headD (.fin 0) := by
  unfold process_token_array_metrics assignFinancial
  refine ⟨?_, ?_, ?_⟩
  · rw [foldl_assign_volume]
    simp [zeroAssign, PyFloat.eqZeroB]
  · rw [foldl_assign_mcap]
    simp [zeroAssign, PyFloat.eqZeroB]
  · rw [foldl_assign_liq]
    simp [zeroAssign, PyFloat.eqZeroB]

/-- C5 counterexample: a `new_pairs` room message whose `content` object
lacks every recognized field still produces one token event (with
defaulted fields) — it does not yield "no event", and no
malformed-message counter exists in the code to increment. -/
theorem new_pairs_missing_fields_event :
    parse_real_message c5RoomMsg = [tokenDataOfSDK emptySDKToken] ∧
      parse_real_message c5RoomMsg ≠ [] := by
  constructor
  · simp [parse_real_message, c5RoomMsg, process_sdk_new_pairs]
  · simp [parse_real_message, c5RoomMsg, process_sdk_new_pairs]

/-- C5 amended: malformed frames raise no exception (the dispatcher is a
total function), and a positional array of length at most 25 — in
particular one of length 5 — produces no event; but a `new_pairs` room
message with missing fields produces one event whose fields all carry the
defaults, and the code maintains no malformed-message counter at all, so
no counter is incremented for either frame. -/
theorem malformed_frames_isolated :
    (∀ l : List PyVal, l.length ≤ 25 →
      parse_real_message (RawData.jlist l) = []) ∧
    parse_real_message c5RoomMsg = [tokenDataOfSDK emptySDKToken] ∧
    tokenDataOfSDK emptySDKToken =
      { token_address := "", creator_address := "", token_name := "Unknown"
        token_ticker := "UNKNOWN", platform := "Unknown", website := ""
        twitter := "", telegram := "", volume_sol := .fin 0
        market_cap_sol := .fin 0, liquidity_sol := .fin 0
        dev_holds_percent := .fin 0, snipers_hold_percent := .fin 0
        lp_burned := false } := by
  refine ⟨?_, ?_, ?_⟩
  · intro l hl
    unfold parse_real_message
    dsimp only
    rw [if_neg (by omega)]
  · simp [parse_real_message, c5RoomMsg, process_sdk_new_pairs]
  · rfl

/-- Witness for C5 amended at the length-5 array. -/
theorem malformed_frames_isolated_witness :
    (List.replicate 5 PyVal.obj).length ≤ 25 ∧
      parse_real_message (RawData.jlist (List.replicate 5 PyVal.obj)) = [] :=
  ⟨by norm_num,
    malformed_frames_isolated.1 (List.replicate 5 PyVal.obj) (by norm_num)⟩
